import Mathlib

/-
Shallow embedding of the logistic delivery/slot business objects
(`src/clusters.py`, `src/delivery.py`, `src/slots.py.py`).

Records are modelled as Lean structures; Odoo recordsets appear as lists;
float volumes are modelled as integers; dates and datetimes as natural
numbers; `UserError` and Python runtime errors as `Except String`.
Mutating methods are modelled as state-passing functions returning the
outcome together with the updated record, so that partial effects before
a raise stay visible.
-/

namespace Logistic

/-- Slot.STATUS selection values (`slots.py.py`). -/
inductive SStatus
  | scheduled
  | delivered
  | returned
  | cancelled
deriving DecidableEq, Repr

/-- Delivery.STATUS selection values (`delivery.py`). -/
inductive DStatus
  | scheduled
  | loaded
  | in_transit
  | fulfilled
  | cancelled
deriving DecidableEq, Repr

/-- Destination-location usage of a stock picking, as tested by the code
(`picking.location_dest_id.usage`). -/
inductive Usage
  | transit
  | customer
  | internal
deriving DecidableEq, Repr

/-- A stock transfer attached to a sale order; only the fields the embedded
methods inspect: whether `state == "done"` and the destination usage. -/
structure Picking where
  state_done : Bool
  dest_usage : Usage
deriving DecidableEq, Repr

/-- A sale order line; `volume` backs the related field `Slot.total_volume`. -/
structure OrderLine where
  line_id : Nat
  volume : Int
deriving DecidableEq, Repr

/-- A sale order, with the fields the embedded methods read or write. -/
structure SaleOrder where
  order_id : Nat
  zone_id : Nat
  delivery_date : Option Nat
  order_line : List OrderLine
  picking_ids : List Picking
deriving DecidableEq, Repr

/-- A logistic.slot record (`slots.py.py`).  `total_volume` is the related
field `sale_order_line_id.volume`, stored here as a plain field;
`sale_order` embeds the slot's `sale_order_id`. -/
structure Slot where
  slot_id : Nat
  status : SStatus
  is_delivered : Bool
  is_returned : Bool
  total_volume : Int
  date : Option Nat
  date_delivered : Option Nat
  delivery_id : Option Nat
  sale_order : SaleOrder
  sale_order_line_id : Nat
deriving DecidableEq, Repr

/-- A fleet vehicle; only `total_capacity` is read by the embedded code. -/
structure Vehicle where
  total_capacity : Int
deriving DecidableEq, Repr

/-- A logistic.delivery record (`delivery.py`), with its one2many
`slot_ids` embedded as a list. -/
structure Delivery where
  delivery_rec_id : Nat
  status : DStatus
  vehicle_id : Option Vehicle
  slot_ids : List Slot
  date : Option Nat
  cancelled_date : Option Nat
deriving DecidableEq, Repr

/-- A logistic.zone.status record (`get_or_create_status_record`); its
`slot_ids` many2many is kept as the list of slot ids. -/
structure ZoneStatus where
  zone_id : Nat
  date : Option Nat
  slot_ids : List Nat
deriving DecidableEq, Repr

/-- True when an `Except` result is an error, i.e. the Python method
raised. -/
def isErr {α : Type} : Except String α → Bool
  | Except.error _ => true
  | Except.ok _ => false

/-- Delivery._compute_total_volume: sum of `total_volume` over the slots
whose status is not "cancelled". -/
def Delivery.total_volume (d : Delivery) : Int :=
  ((d.slot_ids.filter (fun s => s.status ≠ SStatus.cancelled)).map
    (fun s => s.total_volume)).sum

/-- Delivery._compute_delivered_volume: sum of `total_volume` over the
slots with `is_delivered` set. -/
def Delivery.delivered_volume (d : Delivery) : Int :=
  ((d.slot_ids.filter (fun s => s.is_delivered)).map
    (fun s => s.total_volume)).sum

/-- Delivery._compute_remaining_volume: total minus delivered. -/
def Delivery.remaining_volume (d : Delivery) : Int :=
  d.total_volume - d.delivered_volume

/-- Delivery._compute_volume_loss: vehicle capacity minus the sum of all
slot volumes when a vehicle and slots are present; bare capacity when the
delivery has no slots; reading `total_capacity` on an absent vehicle
yields the falsy 0. -/
def Delivery.volume_loss (d : Delivery) : Int :=
  match d.vehicle_id with
  | some v =>
      if d.slot_ids ≠ [] then
        v.total_capacity - (d.slot_ids.map (fun s => s.total_volume)).sum
      else
        v.total_capacity
  | none => 0

/-- Delivery.ensure_fits: with a vehicle, False when the total volume
exceeds the vehicle capacity, else True; without a vehicle, True. -/
def Delivery.ensure_fits (d : Delivery) : Bool :=
  match d.vehicle_id with
  | some v => if d.total_volume > v.total_capacity then false else true
  | none => true

/-- Delivery.onchange_vehicle_id: raises UserError when ensure_fits is
False, otherwise does nothing. -/
def Delivery.onchange_vehicle_id (d : Delivery) :
    Except String Unit × Delivery :=
  if d.ensure_fits = false then
    (Except.error "Vehicle capacity is not enough for this delivery", d)
  else
    (Except.ok (), d)

/-- Slot.set_delivered: marks the slot delivered and stamps the delivery
datetime. -/
def Slot.set_delivered (s : Slot) (now : Nat) : Slot :=
  { s with is_delivered := true, status := SStatus.delivered,
           date_delivered := some now }

/-- Slot.set_returned_driver_portal: marks the slot returned. -/
def Slot.set_returned_driver_portal (s : Slot) : Slot :=
  { s with is_returned := true, status := SStatus.returned }

/-- Slot.cancel_action: raises when the slot is delivered or returned,
otherwise sets its status to "cancelled". -/
def Slot.cancel_action (s : Slot) : Except String Unit × Slot :=
  if s.status = SStatus.delivered ∨ s.status = SStatus.returned then
    (Except.error "Cannot cancel a slot that is delivered or returned", s)
  else
    (Except.ok (), { s with status := SStatus.cancelled })

/-- Slot.reset_to_scheduled: raises when the slot's delivery exists and is
not in "scheduled" status, otherwise sets the slot's status back to
"scheduled" (the boolean flags are not touched); the argument carries the
status of the slot's delivery, `none` when `delivery_id` is unset. -/
def Slot.reset_to_scheduled (s : Slot) (delivery_status : Option DStatus) :
    Except String Unit × Slot :=
  match delivery_status with
  | some st =>
      if st ≠ DStatus.scheduled then
        (Except.error
          "Please reset the delivery to scheduled status before resetting the slot",
         s)
      else
        (Except.ok (), { s with status := SStatus.scheduled })
  | none => (Except.ok (), { s with status := SStatus.scheduled })

/-- Delivery._set_slots_delivered: calls set_delivered on every slot of
the delivery. -/
def Delivery.set_slots_delivered (d : Delivery) (now : Nat) : Delivery :=
  { d with slot_ids := d.slot_ids.map (fun s => s.set_delivered now) }

/-- Delivery.set_all_slots_delivered: raises when the delivery status is
in VALID_STATUSES_SLOT_STATUS_CHANGE = ["scheduled", "loaded"], raises
when no slot has status "scheduled", and otherwise sets every slot of the
delivery to delivered. -/
def Delivery.set_all_slots_delivered (d : Delivery) (now : Nat) :
    Except String Unit × Delivery :=
  if ¬ (d.status = DStatus.scheduled ∨ d.status = DStatus.loaded) then
    if d.slot_ids.filter (fun s => s.status = SStatus.scheduled) ≠ [] then
      (Except.ok (), d.set_slots_delivered now)
    else
      (Except.error "No Scheduled Slots!", d)
  else
    (Except.error
      "A delivery must be at least in transit if you want to deliver a slot!",
     d)

/-- One user-visible slot operation among the four of claim C8. -/
inductive SlotOp
  | deliver (now : Nat)
  | ret
  | cancel
  | reset (delivery_status : Option DStatus)
deriving DecidableEq, Repr

/-- Apply one slot operation; for the fallible ones the slot state after
the call is taken whether or not it raised. -/
def applySlotOp (op : SlotOp) (s : Slot) : Slot :=
  match op with
  | SlotOp.deliver now => s.set_delivered now
  | SlotOp.ret => s.set_returned_driver_portal
  | SlotOp.cancel => (s.cancel_action).2
  | SlotOp.reset ds => (s.reset_to_scheduled ds).2

/-- Run a sequence of slot operations from a starting slot. -/
def runSlotOps (ops : List SlotOp) (s : Slot) : Slot :=
  ops.foldl (fun a op => applySlotOp op a) s

/-- A sale order with no lines and no pickings, used for concrete
witnesses. -/
def sale_order0 : SaleOrder :=
  { order_id := 0, zone_id := 0, delivery_date := none, order_line := [],
    picking_ids := [] }

/-- A freshly created slot: the default status "scheduled", both boolean
flags unset. -/
def fresh_slot : Slot :=
  { slot_id := 0, status := SStatus.scheduled, is_delivered := false,
    is_returned := false, total_volume := 0, date := none,
    date_delivered := none, delivery_id := none, sale_order := sale_order0,
    sale_order_line_id := 0 }

/-- A cancelled slot with record id 1, for concrete inputs. -/
def cancelled_slot1 : Slot :=
  { fresh_slot with slot_id := 1, status := SStatus.cancelled }

/-- The flags-track-status invariant in implication form: the flag is set
whenever the corresponding status holds. -/
def slot_flags_inv (s : Slot) : Prop :=
  (s.status = SStatus.delivered → s.is_delivered = true) ∧
  (s.status = SStatus.returned → s.is_returned = true)

instance (s : Slot) : Decidable (slot_flags_inv s) := by
  unfold slot_flags_inv
  infer_instance

/-- Deduplicate a list of sale orders by id keeping first occurrences,
the recordset semantics of `mapped("sale_order_id")`; the second argument
accumulates the ids already seen. -/
def dedupOrders : List SaleOrder → List Nat → List SaleOrder
  | [], _ => []
  | o :: rest, seen =>
      if o.order_id ∈ seen then dedupOrders rest seen
      else o :: dedupOrders rest (o.order_id :: seen)

/-- Delivery._compute_sale_order_ids: the sale orders of the delivery's
slots, deduplicated. -/
def Delivery.sale_order_ids (d : Delivery) : List SaleOrder :=
  dedupOrders (d.slot_ids.map (fun s => s.sale_order)) []

/-- Whether a picking is a validated (done) transfer whose destination is
a transit or customer location, the condition tested by
Delivery.cancel_action. -/
def Picking.validated_outward (p : Picking) : Bool :=
  p.state_done &&
    decide (p.dest_usage = Usage.transit ∨ p.dest_usage = Usage.customer)

/-- Sequentially cancel a list of slots, stopping at the first raise and
keeping the slots already cancelled before it. -/
def cancelSlotsLoop : List Slot → Except String Unit × List Slot
  | [] => (Except.ok (), [])
  | s :: rest =>
      match s.cancel_action with
      | (Except.error e, s1) => (Except.error e, s1 :: rest)
      | (Except.ok _, s1) =>
          match cancelSlotsLoop rest with
          | (Except.error e, rest1) => (Except.error e, s1 :: rest1)
          | (Except.ok _, rest1) => (Except.ok (), s1 :: rest1)

/-- Delivery.cancel_action: raises when the delivery is in transit or
loaded and some associated sale order has a validated transfer to a
transit or customer location, raises when the delivery is fulfilled,
otherwise cancels each slot in turn (a slot that is delivered or returned
raises) and finally sets the status to "cancelled" and stamps
cancelled_date. -/
def Delivery.cancel_action (d : Delivery) (now : Nat) :
    Except String Unit × Delivery :=
  if (d.status = DStatus.in_transit ∨ d.status = DStatus.loaded) ∧
       d.sale_order_ids.any
         (fun o => o.picking_ids.any Picking.validated_outward) = true then
    (Except.error "Please reverse all validated  transfers cancel this delivery",
     d)
  else if d.status = DStatus.fulfilled then
    (Except.error "You can only cancel a delivery that is not yet fulfilled", d)
  else
    match cancelSlotsLoop d.slot_ids with
    | (Except.error e, slots1) =>
        (Except.error e, { d with slot_ids := slots1 })
    | (Except.ok _, slots1) =>
        (Except.ok (),
         { d with slot_ids := slots1, status := DStatus.cancelled,
                  cancelled_date := some now })

/-- Slot.check_compatible: raises when the target delivery has no
vehicle; raises when the target is not in "scheduled" status; otherwise
returns whether the target's volume_loss strictly exceeds the slot's
total_volume. -/
def Slot.check_compatible (s : Slot) (target : Delivery) :
    Except String Bool :=
  match target.vehicle_id with
  | some _ =>
      if target.status = DStatus.scheduled then
        Except.ok (decide (target.volume_loss > s.total_volume))
      else
        Except.error "Target delivery is not in scheduled status!"
  | none => Except.error "Please Assign a vehicle to target delivery!"

/-- Slot.change_delivery: raises when check_compatible raises or returns
False; otherwise points the slot at the target delivery (whose one2many
slot_ids then contains the slot) and returns True. -/
def Slot.change_delivery (s : Slot) (target : Delivery) :
    Except String Bool × Slot × Delivery :=
  match s.check_compatible target with
  | Except.error e => (Except.error e, s, target)
  | Except.ok c =>
      if c = false then
        (Except.error
          "The target delivery is not in scheduled state or the vehicle does not have the capacity to carry the product",
         s, target)
      else
        let s1 := { s with delivery_id := some target.delivery_rec_id }
        (Except.ok true, s1, { target with slot_ids := target.slot_ids ++ [s1] })

/-- Move a list of slots one at a time onto the target delivery,
mirroring the loop body of Delivery.reallocate_to: the source delivery's
slot_ids shrink as slots move; a raise from change_delivery propagates
with the partial state. -/
def moveSlots : List Slot → Delivery → Delivery →
    Except String Unit × Delivery × Delivery
  | [], src, tgt => (Except.ok (), src, tgt)
  | s :: rest, src, tgt =>
      match s.change_delivery tgt with
      | (Except.error e, _, _) => (Except.error e, src, tgt)
      | (Except.ok _, _, tgt1) =>
          moveSlots rest { src with slot_ids := rest } tgt1

/-- Delivery.reallocate_to: when the target delivery is in "scheduled"
status, moves every slot of the source onto the target via
change_delivery and returns True; otherwise falls through and returns
None. -/
def Delivery.reallocate_to (src tgt : Delivery) :
    Except String (Option Bool) × Delivery × Delivery :=
  if tgt.status = DStatus.scheduled then
    match moveSlots src.slot_ids src tgt with
    | (Except.error e, src1, tgt1) => (Except.error e, src1, tgt1)
    | (Except.ok _, src1, tgt1) => (Except.ok (some true), src1, tgt1)
  else
    (Except.ok none, src, tgt)

/-- Slot.get_or_create_status_record: search the zone status table for a
record with the order's zone and the slot's date; create one holding the
slot when none exists, otherwise append the slot to every matching
record. -/
def Slot.get_or_create_status_record (statuses : List ZoneStatus) (s : Slot)
    (o : SaleOrder) : List ZoneStatus :=
  if statuses.filter
      (fun z => decide (z.zone_id = o.zone_id ∧ z.date = s.date)) = [] then
    statuses ++ [{ zone_id := o.zone_id, date := s.date,
                   slot_ids := [s.slot_id] }]
  else
    statuses.map (fun z =>
      if z.zone_id = o.zone_id ∧ z.date = s.date then
        { z with slot_ids := z.slot_ids ++ [s.slot_id] }
      else z)

/-- The slot record built by Slot.create_slots for one order line: the
values dict passed to Slot.create plus the sequence-assigned id; the
related field total_volume is that line's volume and the defaults apply
to the remaining fields. -/
def mkSlotForLine (order : SaleOrder) (date : Option Nat) (sid : Nat)
    (line : OrderLine) : Slot :=
  { slot_id := sid, status := SStatus.scheduled, is_delivered := false,
    is_returned := false, total_volume := line.volume, date := date,
    date_delivered := none, delivery_id := none, sale_order := order,
    sale_order_line_id := line.line_id }

/-- The loop of Slot.create_slots: one slot per order line, each slot
registered in the zone status table right after its creation; `sid`
supplies the next fresh record id. -/
def createSlotsGo (order : SaleOrder) (date : Option Nat) :
    List OrderLine → Nat → List ZoneStatus → List Slot × List ZoneStatus
  | [], _, statuses => ([], statuses)
  | line :: rest, sid, statuses =>
      let s := mkSlotForLine order date sid line
      let statuses1 := Slot.get_or_create_status_record statuses s order
      let r := createSlotsGo order date rest (sid + 1) statuses1
      (s :: r.1, r.2)

/-- Slot.create_slots: creates one slot per order line of the order, each
referencing that line, and registers each in the zone-date status
table. -/
def Slot.create_slots (order : SaleOrder) (date : Option Nat) (sid : Nat)
    (statuses : List ZoneStatus) : List Slot × List ZoneStatus :=
  createSlotsGo order date order.order_line sid statuses

/-- Delivery.date_in_past: True when the delivery has a date and it lies
before today. -/
def Delivery.date_in_past (d : Delivery) (today : Nat) : Bool :=
  match d.date with
  | some dt => decide (dt < today)
  | none => false

/-- One step of the date-update loop of
Delivery._update_delivery_date_and_related_objects: assign the new date
to the slot and to its sale order's delivery_date, then register the slot
in the zone status table. -/
def updateSlotDate (newdate : Option Nat)
    (acc : List Slot × List ZoneStatus) (s : Slot) :
    List Slot × List ZoneStatus :=
  let s1 := { s with date := newdate,
                     sale_order :=
                       { s.sale_order with delivery_date := newdate } }
  (acc.1 ++ [s1], Slot.get_or_create_status_record acc.2 s1 s1.sale_order)

/-- Delivery._update_delivery_date_and_related_objects: raises when the
delivery's date is in the past; otherwise pushes the delivery's date onto
every slot and its sale order and refreshes the zone status records. -/
def Delivery.update_delivery_date_and_related_objects (d : Delivery)
    (today : Nat) (statuses : List ZoneStatus) :
    Except String Unit × Delivery × List ZoneStatus :=
  if d.date_in_past today = true then
    (Except.error "Delivery date cannot be in the past.", d, statuses)
  else
    let r := d.slot_ids.foldl (updateSlotDate d.date) ([], statuses)
    (Except.ok (), { d with slot_ids := r.1 }, r.2)

/-- Slot.unlink on a single slot (as invoked per item by
Delivery.unlink): raises unless the slot's status is "cancelled",
otherwise the record is deleted. -/
def Slot.unlink (s : Slot) : Except String Bool :=
  if s.status ≠ SStatus.cancelled then
    Except.error "Cannot delete a slot that is not in Canclled state"
  else
    Except.ok true

/-- The slot-deletion loop of Delivery.unlink: deletes the slots in
order, stopping at the first slot whose unlink raises; returns the slot
rows still present afterwards. -/
def unlinkSlotsLoop : List Slot → Except String Unit × List Slot
  | [] => (Except.ok (), [])
  | s :: rest =>
      match s.unlink with
      | Except.error e => (Except.error e, s :: rest)
      | Except.ok _ =>
          match unlinkSlotsLoop rest with
          | (Except.error e, rem) => (Except.error e, rem)
          | (Except.ok _, rem) => (Except.ok (), rem)

/-- Delivery.unlink on a recordset: raises unless every delivery is
cancelled, with nothing deleted; then (the loop variable holding the LAST
delivery) unlinks that delivery's slots one at a time — a raise there
leaves the earlier slots deleted and every delivery in place — and on
success deletes all the deliveries, leaving the slot rows of the other
deliveries behind.  Returns the outcome, the delivery rows still present,
and the slot rows of the recordset's deliveries still present. -/
def Delivery.unlink : List Delivery →
    Except String Unit × List Delivery × List Slot
  | [] => (Except.error "NameError: name delivery is not defined", [], [])
  | d :: ds =>
      if (d :: ds).any (fun x => decide (x.status ≠ DStatus.cancelled)) then
        (Except.error "You can only delete cancelled deliveries", d :: ds,
         ((d :: ds).map (fun x => x.slot_ids)).flatten)
      else
        match unlinkSlotsLoop
            (((d :: ds).getLast (List.cons_ne_nil d ds)).slot_ids) with
        | (Except.error e, rem) =>
            (Except.error e, d :: ds,
             (((d :: ds).dropLast.map (fun x => x.slot_ids)).flatten) ++ rem)
        | (Except.ok _, _) =>
            (Except.ok (), [],
             ((d :: ds).dropLast.map (fun x => x.slot_ids)).flatten)

/-- A values dictionary passed to create: the guid and name keys the
overridden create methods write, plus an opaque payload standing for the
other keys. -/
structure Vals where
  guid : Option Nat
  name : Option Nat
  payload : Nat
deriving DecidableEq, Repr

/-- The values argument of create: a single dict, a list of dicts, or a
value of any other type. -/
inductive CreateArg
  | dict (v : Vals)
  | list (l : List Vals)
  | other
deriving DecidableEq, Repr

/-- Write a fresh uuid, drawn from the incrementing counter that models
uuid4, into each dict of a list. -/
def assignGuids (uuidCtr : Nat) : List Vals → List Vals
  | [] => []
  | v :: rest =>
      { v with guid := some uuidCtr } :: assignGuids (uuidCtr + 1) rest

/-- Write a sequence name and a fresh uuid into each dict of a list, as
Slot.create does. -/
def assignNamesGuids (uuidCtr seqCtr : Nat) : List Vals → List Vals
  | [] => []
  | v :: rest =>
      { v with name := some seqCtr, guid := some uuidCtr } ::
        assignNamesGuids (uuidCtr + 1) (seqCtr + 1) rest

/-- Cluster.create: writes a fresh uuid into the dict, or into each dict
of a list, before delegating to the framework create; any other argument
type raises ValueError. -/
def Cluster.create (uuidCtr : Nat) (arg : CreateArg) :
    Except String (List Vals) :=
  match arg with
  | CreateArg.dict v => Except.ok [{ v with guid := some uuidCtr }]
  | CreateArg.list l => Except.ok (assignGuids uuidCtr l)
  | CreateArg.other =>
      Except.error
        "ValueError: Invalid values parameter. Must be a dictionary or a list of dictionaries."

/-- Delivery.create: writes a fresh uuid into the dict or into each dict
of a list, then runs values[\x22name\x22] = sequence — an assignment that
works on a dict but is a TypeError on a list (string index into a list),
and equally fails on any other argument type. -/
def Delivery.create (uuidCtr seqCtr : Nat) (arg : CreateArg) :
    Except String (List Vals) :=
  match arg with
  | CreateArg.dict v =>
      Except.ok [{ v with guid := some uuidCtr, name := some seqCtr }]
  | CreateArg.list _ =>
      Except.error "TypeError: list indices must be integers or slices, not str"
  | CreateArg.other =>
      Except.error "TypeError: object does not support item assignment"

/-- Slot.create: writes a sequence name and a fresh uuid into the dict,
or into each dict of a list; any other argument type reaches the
framework create unprepared and fails there. -/
def Slot.create (uuidCtr seqCtr : Nat) (arg : CreateArg) :
    Except String (List Vals) :=
  match arg with
  | CreateArg.dict v =>
      Except.ok [{ v with name := some seqCtr, guid := some uuidCtr }]
  | CreateArg.list l => Except.ok (assignNamesGuids uuidCtr seqCtr l)
  | CreateArg.other => Except.error "TypeError: vals_list is not iterable"

end Logistic

namespace Logistic

/-- Summing a function over a filtered list equals summing the function
guarded by the predicate over the whole list. -/
theorem sum_filter_map_eq (p : Slot → Bool) (f : Slot → Int) (l : List Slot) :
    ((l.filter p).map f).sum = (l.map (fun x => if p x then f x else 0)).sum := by
  induction l with
  | nil => simp
  | cons s rest ih =>
      by_cases h : p s <;> simp [List.filter_cons, h, ih]

/-- C7: the computed volume fields of a delivery are the claimed sums:
`total_volume` sums the volumes of non-cancelled slots, `delivered_volume`
sums the volumes of delivered slots, and `remaining_volume` is their
difference. -/
theorem C7_volume_fields (d : Delivery) :
    d.total_volume =
      (d.slot_ids.map
        (fun s => if s.status ≠ SStatus.cancelled then s.total_volume else 0)).sum ∧
    d.delivered_volume =
      (d.slot_ids.map
        (fun s => if s.is_delivered then s.total_volume else 0)).sum ∧
    d.remaining_volume = d.total_volume - d.delivered_volume := by
  refine ⟨?_, ?_, rfl⟩
  · unfold Delivery.total_volume
    have h := sum_filter_map_eq (fun s => decide (s.status ≠ SStatus.cancelled))
      (fun s => s.total_volume) d.slot_ids
    simpa using h
  · unfold Delivery.delivered_volume
    have h := sum_filter_map_eq (fun s => s.is_delivered)
      (fun s => s.total_volume) d.slot_ids
    simpa using h

/-- C1: ensure_fits is True when no vehicle is assigned; with a vehicle it
is True exactly when the delivery's total volume is at most the vehicle's
capacity; onchange_vehicle_id raises exactly when ensure_fits is False and
otherwise leaves the delivery unchanged. -/
theorem C1_ensure_fits (d : Delivery) :
    (d.vehicle_id = none → d.ensure_fits = true) ∧
    (∀ v, d.vehicle_id = some v →
      (d.ensure_fits = true ↔ d.total_volume ≤ v.total_capacity)) ∧
    (isErr d.onchange_vehicle_id.1 = true ↔ d.ensure_fits = false) ∧
    d.onchange_vehicle_id.2 = d := by
  refine ⟨?_, ?_, ?_, ?_⟩
  · intro h
    simp [Delivery.ensure_fits, h]
  · intro v hv
    simp only [Delivery.ensure_fits, hv]
    constructor
    · intro h
      by_contra hc
      simp [not_le] at hc
      simp [hc] at h
    · intro h
      have : ¬ d.total_volume > v.total_capacity := not_lt.mpr h
      simp [this]
  · unfold Delivery.onchange_vehicle_id
    by_cases h : d.ensure_fits = false <;> simp [h, isErr]
  · unfold Delivery.onchange_vehicle_id
    by_cases h : d.ensure_fits = false <;> simp [h]

/-- Witness for C1 at a concrete delivery: a delivery whose vehicle has
capacity 10 and whose single slot has volume 4 passes the fit check. -/
theorem C1_ensure_fits_witness :
    ({ delivery_rec_id := 1, status := DStatus.scheduled,
       vehicle_id := some { total_capacity := 10 },
       slot_ids := [{ slot_id := 1, status := SStatus.scheduled,
                      is_delivered := false, is_returned := false,
                      total_volume := 4, date := none, date_delivered := none,
                      delivery_id := some 1,
                      sale_order := { order_id := 1, zone_id := 1,
                                      delivery_date := none, order_line := [],
                                      picking_ids := [] },
                      sale_order_line_id := 1 }],
       date := none, cancelled_date := none : Delivery }).ensure_fits = true := by
  have h := C1_ensure_fits
    { delivery_rec_id := 1, status := DStatus.scheduled,
      vehicle_id := some { total_capacity := 10 },
      slot_ids := [{ slot_id := 1, status := SStatus.scheduled,
                     is_delivered := false, is_returned := false,
                     total_volume := 4, date := none, date_delivered := none,
                     delivery_id := some 1,
                     sale_order := { order_id := 1, zone_id := 1,
                                     delivery_date := none, order_line := [],
                                     picking_ids := [] },
                     sale_order_line_id := 1 }],
      date := none, cancelled_date := none }
  exact (h.2.1 { total_capacity := 10 } rfl).mpr (by decide)

/-- C4 counterexample: on an in-transit delivery holding a scheduled slot
and a cancelled slot, set_all_slots_delivered sets BOTH slots to
delivered, so the non-scheduled slot does not stay unchanged as the claim
states. -/
theorem C4_counterexample :
    ((Delivery.set_all_slots_delivered
        { delivery_rec_id := 1, status := DStatus.in_transit,
          vehicle_id := none,
          slot_ids := [fresh_slot,
                       { fresh_slot with slot_id := 1,
                                         status := SStatus.cancelled }],
          date := none, cancelled_date := none } 5).2.slot_ids.map
      Slot.status) = [SStatus.delivered, SStatus.delivered] ∧
    SStatus.cancelled ≠ SStatus.delivered := by
  decide

/-- C4 amended: set_all_slots_delivered raises exactly when the delivery
status is "scheduled" or "loaded" or no slot has status "scheduled"; on a
raise the delivery is unchanged; otherwise it sets EVERY slot of the
delivery to delivered (is_delivered, status "delivered", date_delivered
stamped). -/
theorem C4_set_all_slots_delivered (d : Delivery) (now : Nat) :
    (isErr (d.set_all_slots_delivered now).1 = true ↔
      ((d.status = DStatus.scheduled ∨ d.status = DStatus.loaded) ∨
        ∀ s ∈ d.slot_ids, s.status ≠ SStatus.scheduled)) ∧
    (isErr (d.set_all_slots_delivered now).1 = true →
      (d.set_all_slots_delivered now).2 = d) ∧
    (isErr (d.set_all_slots_delivered now).1 = false →
      (d.set_all_slots_delivered now).2.slot_ids =
        d.slot_ids.map (fun s => s.set_delivered now)) := by
  unfold Delivery.set_all_slots_delivered
  by_cases hs : d.status = DStatus.scheduled ∨ d.status = DStatus.loaded
  · simp [hs, isErr]
  · by_cases hf : d.slot_ids.filter (fun s => s.status = SStatus.scheduled) = []
    · have hall : ∀ s ∈ d.slot_ids, s.status ≠ SStatus.scheduled := by
        intro s hmem
        have := List.filter_eq_nil_iff.mp hf s hmem
        simpa using this
      simp [hs, hf, isErr]
      exact hall
    · have hnall : ¬ ∀ s ∈ d.slot_ids, s.status ≠ SStatus.scheduled := by
        intro hall
        apply hf
        apply List.filter_eq_nil_iff.mpr
        intro s hmem
        simpa using hall s hmem
      simp [hs, hf, isErr, hnall, Delivery.set_slots_delivered]

/-- Witness for C4 amended at a concrete delivery: an in-transit delivery
with one scheduled slot succeeds and the slot comes out delivered. -/
theorem C4_set_all_slots_delivered_witness :
    (Delivery.set_all_slots_delivered
      { delivery_rec_id := 2, status := DStatus.in_transit,
        vehicle_id := none, slot_ids := [fresh_slot], date := none,
        cancelled_date := none } 7).2.slot_ids =
      [fresh_slot].map (fun s => s.set_delivered 7) := by
  have h := C4_set_all_slots_delivered
    { delivery_rec_id := 2, status := DStatus.in_transit,
      vehicle_id := none, slot_ids := [fresh_slot], date := none,
      cancelled_date := none } 7
  exact h.2.2 (by decide)

/-- When change_delivery does not raise, it returns the slot repointed at
the target and the target with that slot appended to its slot_ids. -/
theorem change_delivery_ok_shape (s : Slot) (tgt : Delivery) :
    isErr (s.change_delivery tgt).1 = false →
      (s.change_delivery tgt).2.1 =
        { s with delivery_id := some tgt.delivery_rec_id } ∧
      (s.change_delivery tgt).2.2 =
        { tgt with slot_ids := tgt.slot_ids ++
            [{ s with delivery_id := some tgt.delivery_rec_id }] } := by
  unfold Slot.change_delivery Slot.check_compatible
  cases hv : tgt.vehicle_id with
  | none =>
      intro h
      simp [isErr] at h
  | some v =>
      by_cases hs : tgt.status = DStatus.scheduled
      · rw [if_pos hs]
        by_cases hc : tgt.volume_loss > s.total_volume
        · simp [hc, isErr]
        · intro h
          simp [hc, isErr] at h
      · rw [if_neg hs]
        intro h
        simp [isErr] at h

/-- Behaviour of moveSlots: the target keeps its record id, its existing
slots persist, and on success the source is emptied while every moved
slot, repointed at the target, ends up among the target's slots. -/
theorem moveSlots_spec (slots : List Slot) : ∀ src tgt : Delivery,
    ((moveSlots slots src tgt).2.2.delivery_rec_id = tgt.delivery_rec_id) ∧
    (∀ x ∈ tgt.slot_ids, x ∈ (moveSlots slots src tgt).2.2.slot_ids) ∧
    (isErr (moveSlots slots src tgt).1 = false →
      (src.slot_ids = slots → (moveSlots slots src tgt).2.1.slot_ids = []) ∧
      ∀ x ∈ slots,
        { x with delivery_id := some tgt.delivery_rec_id } ∈
          (moveSlots slots src tgt).2.2.slot_ids) := by
  induction slots with
  | nil =>
      intro src tgt
      refine ⟨rfl, fun x hx => hx, fun _ => ⟨fun h => h, ?_⟩⟩
      intro x hx
      simp at hx
  | cons s rest ih =>
      intro src tgt
      rcases hcd : s.change_delivery tgt with ⟨c1, s1, tgt1⟩
      have hred : moveSlots (s :: rest) src tgt =
          (match s.change_delivery tgt with
           | (Except.error e, _, _) => (Except.error e, src, tgt)
           | (Except.ok _, _, tgt2) =>
               moveSlots rest { src with slot_ids := rest } tgt2) := rfl
      rw [hcd] at hred
      cases c1 with
      | error e =>
          rw [hred]
          refine ⟨rfl, fun x hx => hx, fun h => ?_⟩
          simp [isErr] at h
      | ok b =>
          have hshape := change_delivery_ok_shape s tgt
            (by rw [hcd]; simp [isErr])
          rw [hcd] at hshape
          have hs1 : s1 = { s with delivery_id := some tgt.delivery_rec_id } :=
            hshape.1
          have ht1 : tgt1 =
              { tgt with slot_ids := tgt.slot_ids ++
                  [{ s with delivery_id := some tgt.delivery_rec_id }] } :=
            hshape.2
          have hid1 : tgt1.delivery_rec_id = tgt.delivery_rec_id := by
            rw [ht1]
          rw [hred]
          have ihspec := ih { src with slot_ids := rest } tgt1
          refine ⟨?_, ?_, ?_⟩
          · rw [ihspec.1, hid1]
          · intro x hx
            apply ihspec.2.1
            rw [ht1]
            simp
            left
            exact hx
          · intro hok
            refine ⟨fun _ => (ihspec.2.2 hok).1 rfl, ?_⟩
            intro x hx
            rcases List.mem_cons.mp hx with hx | hx
            · subst hx
              apply ihspec.2.1
              rw [ht1]
              simp
            · have := (ihspec.2.2 hok).2 x hx
              rw [hid1] at this
              exact this

/-- cancelSlotsLoop raises exactly when some slot in the list is
delivered or returned. -/
theorem cancelSlotsLoop_err (l : List Slot) :
    isErr (cancelSlotsLoop l).1 = true ↔
      ∃ s ∈ l, s.status = SStatus.delivered ∨ s.status = SStatus.returned := by
  induction l with
  | nil => simp [cancelSlotsLoop, isErr]
  | cons s rest ih =>
      unfold cancelSlotsLoop Slot.cancel_action
      by_cases h : s.status = SStatus.delivered ∨ s.status = SStatus.returned
      · simp [h, isErr]
      · rcases hr : cancelSlotsLoop rest with ⟨r1, r2⟩
        rw [hr] at ih
        cases r1 with
        | error e =>
            simp [h, isErr] at ih ⊢
            exact ih
        | ok u =>
            simp [h, isErr] at ih ⊢
            exact ih

/-- When cancelSlotsLoop succeeds, every slot has been set to
"cancelled". -/
theorem cancelSlotsLoop_ok (l : List Slot) :
    isErr (cancelSlotsLoop l).1 = false →
      (cancelSlotsLoop l).2 =
        l.map (fun s => { s with status := SStatus.cancelled }) := by
  induction l with
  | nil => intro _; simp [cancelSlotsLoop]
  | cons s rest ih =>
      intro hok
      unfold cancelSlotsLoop Slot.cancel_action at hok ⊢
      by_cases h : s.status = SStatus.delivered ∨ s.status = SStatus.returned
      · simp [h, isErr] at hok
      · rcases hr : cancelSlotsLoop rest with ⟨r1, r2⟩
        rw [hr] at hok ih
        cases r1 with
        | error e => simp [h, isErr] at hok
        | ok u =>
            simp [h, isErr] at hok ih ⊢
            exact ih

/-- C2: when reallocate_to returns True the target was in "scheduled"
status, the source has lost all its slots and each of them, repointed at
the target, sits among the target's slots; when the target is not
scheduled nothing moves and None is returned; change_delivery raises
exactly when the target has no vehicle, is not scheduled, or its
volume_loss does not strictly exceed the slot's total_volume, and on such
a raise the slot (hence its delivery_id) is unchanged. -/
theorem C2_reallocate_change_delivery (src tgt : Delivery) (s : Slot) :
    ((src.reallocate_to tgt).1 = Except.ok (some true) →
      tgt.status = DStatus.scheduled ∧
      (src.reallocate_to tgt).2.1.slot_ids = [] ∧
      ∀ x ∈ src.slot_ids,
        { x with delivery_id := some tgt.delivery_rec_id } ∈
          (src.reallocate_to tgt).2.2.slot_ids) ∧
    (tgt.status ≠ DStatus.scheduled →
      src.reallocate_to tgt = (Except.ok none, src, tgt)) ∧
    (isErr (s.change_delivery tgt).1 = true ↔
      (tgt.vehicle_id = none ∨ tgt.status ≠ DStatus.scheduled ∨
        ¬ tgt.volume_loss > s.total_volume)) ∧
    (isErr (s.change_delivery tgt).1 = true →
      (s.change_delivery tgt).2.1 = s) := by
  refine ⟨?_, ?_, ?_, ?_⟩
  · intro h
    unfold Delivery.reallocate_to at h ⊢
    by_cases hsch : tgt.status = DStatus.scheduled
    · rw [if_pos hsch] at h ⊢
      rcases hm : moveSlots src.slot_ids src tgt with ⟨r1, src1, tgt1⟩
      have hspec := moveSlots_spec src.slot_ids src tgt
      rw [hm] at h hspec
      cases r1 with
      | error e => exact Except.noConfusion h
      | ok u =>
          refine ⟨hsch, ?_, ?_⟩
          · exact (hspec.2.2 (by simp [isErr])).1 rfl
          · intro x hx
            exact (hspec.2.2 (by simp [isErr])).2 x hx
    · rw [if_neg hsch] at h
      simp at h
  · intro h
    unfold Delivery.reallocate_to
    rw [if_neg h]
  · unfold Slot.change_delivery Slot.check_compatible
    cases hv : tgt.vehicle_id with
    | none => exact ⟨fun _ => Or.inl rfl, fun _ => rfl⟩
    | some v =>
        by_cases hsch : tgt.status = DStatus.scheduled
        · rw [if_pos hsch]
          by_cases hc : tgt.volume_loss > s.total_volume
          · simp [hc, isErr, hv, hsch]
          · simp [hc, isErr, hv, hsch]
        · rw [if_neg hsch]
          simp [isErr, hv, hsch]
  · unfold Slot.change_delivery Slot.check_compatible
    cases hv : tgt.vehicle_id with
    | none => intro _; rfl
    | some v =>
        by_cases hsch : tgt.status = DStatus.scheduled
        · rw [if_pos hsch]
          by_cases hc : tgt.volume_loss > s.total_volume
          · intro h
            simp [hc, isErr] at h
          · intro _
            simp [hc]
        · rw [if_neg hsch]
          intro _
          rfl

/-- Witness for C2 at a concrete input: moving a fresh slot to a
scheduled target delivery without a vehicle raises. -/
theorem C2_reallocate_change_delivery_witness :
    isErr (Slot.change_delivery fresh_slot
      { delivery_rec_id := 4, status := DStatus.scheduled,
        vehicle_id := none, slot_ids := [], date := none,
        cancelled_date := none }).1 = true :=
  (C2_reallocate_change_delivery
    { delivery_rec_id := 4, status := DStatus.scheduled, vehicle_id := none,
      slot_ids := [], date := none, cancelled_date := none }
    { delivery_rec_id := 4, status := DStatus.scheduled, vehicle_id := none,
      slot_ids := [], date := none, cancelled_date := none }
    fresh_slot).2.2.1.mpr (Or.inl rfl)

/-- C3: Delivery.cancel_action raises exactly when the delivery is
fulfilled, or is in transit or loaded with a validated transfer to a
transit or customer location on some associated sale order, or has a
delivered or returned slot; on success every slot is cancelled and the
delivery gets status "cancelled" with cancelled_date stamped; on a raise
the delivery status is unchanged; a slot's own cancel_action raises
exactly when the slot is delivered or returned. -/
theorem C3_cancel_action (d : Delivery) (now : Nat) :
    (isErr (d.cancel_action now).1 = true ↔
      (d.status = DStatus.fulfilled ∨
        ((d.status = DStatus.in_transit ∨ d.status = DStatus.loaded) ∧
          ∃ o ∈ d.sale_order_ids, ∃ p ∈ o.picking_ids,
            p.validated_outward = true) ∨
        ∃ s ∈ d.slot_ids,
          s.status = SStatus.delivered ∨ s.status = SStatus.returned)) ∧
    (isErr (d.cancel_action now).1 = false →
      (d.cancel_action now).2.slot_ids =
        d.slot_ids.map (fun s => { s with status := SStatus.cancelled }) ∧
      (d.cancel_action now).2.status = DStatus.cancelled ∧
      (d.cancel_action now).2.cancelled_date = some now) ∧
    (isErr (d.cancel_action now).1 = true →
      (d.cancel_action now).2.status = d.status) ∧
    (∀ s : Slot, isErr (s.cancel_action).1 = true ↔
      (s.status = SStatus.delivered ∨ s.status = SStatus.returned)) := by
  have hslot : ∀ s : Slot, isErr (s.cancel_action).1 = true ↔
      (s.status = SStatus.delivered ∨ s.status = SStatus.returned) := by
    intro s
    unfold Slot.cancel_action
    by_cases h : s.status = SStatus.delivered ∨ s.status = SStatus.returned <;>
      simp [h, isErr]
  have hany : d.sale_order_ids.any
      (fun o => o.picking_ids.any Picking.validated_outward) = true ↔
      ∃ o ∈ d.sale_order_ids, ∃ p ∈ o.picking_ids,
        p.validated_outward = true := by
    simp [List.any_eq_true]
  unfold Delivery.cancel_action
  by_cases hA : (d.status = DStatus.in_transit ∨ d.status = DStatus.loaded) ∧
      d.sale_order_ids.any
        (fun o => o.picking_ids.any Picking.validated_outward) = true
  · rw [if_pos hA]
    refine ⟨?_, ?_, ?_, hslot⟩
    · simp only [isErr, true_iff]
      right
      left
      exact ⟨hA.1, hany.mp hA.2⟩
    · intro h
      simp [isErr] at h
    · intro _
      rfl
  · rw [if_neg hA]
    by_cases hF : d.status = DStatus.fulfilled
    · rw [if_pos hF]
      refine ⟨?_, ?_, ?_, hslot⟩
      · simp only [isErr, true_iff]
        left
        exact hF
      · intro h
        simp [isErr] at h
      · intro _
        rfl
    · rw [if_neg hF]
      rcases hr : cancelSlotsLoop d.slot_ids with ⟨r1, r2⟩
      have herr := cancelSlotsLoop_err d.slot_ids
      have hok := cancelSlotsLoop_ok d.slot_ids
      rw [hr] at herr hok
      cases r1 with
      | error e =>
          refine ⟨?_, ?_, ?_, hslot⟩
          · simp only [isErr, true_iff]
            right
            right
            exact herr.mp rfl
          · intro h
            simp [isErr] at h
          · intro _
            rfl
      | ok u =>
          refine ⟨?_, ?_, ?_, hslot⟩
          · simp only [isErr]
            constructor
            · intro h
              exact absurd h (by simp)
            · intro h
              exfalso
              rcases h with h | h | h
              · exact hF h
              · exact hA ⟨h.1, hany.mpr h.2⟩
              · have hcontra : isErr ((Except.ok u : Except String Unit)) = true :=
                  herr.mpr h
                simp [isErr] at hcontra
          · intro _
            exact ⟨hok rfl, rfl, rfl⟩
          · intro h
            simp [isErr] at h

/-- Witness for C3 at a concrete delivery: a scheduled delivery with one
scheduled slot cancels successfully and ends cancelled with the stamp. -/
theorem C3_cancel_action_witness :
    (Delivery.cancel_action
      { delivery_rec_id := 3, status := DStatus.scheduled,
        vehicle_id := none, slot_ids := [fresh_slot], date := none,
        cancelled_date := none } 9).2.status = DStatus.cancelled := by
  have h := C3_cancel_action
    { delivery_rec_id := 3, status := DStatus.scheduled,
      vehicle_id := none, slot_ids := [fresh_slot], date := none,
      cancelled_date := none } 9
  exact (h.2.1 (by decide)).2.1

/-- The slot component accumulated by the date-update fold is the
accumulator followed by the slots with the new date pushed onto them and
their sale orders. -/
theorem foldl_updateSlotDate (nd : Option Nat) (l : List Slot) :
    ∀ acc : List Slot × List ZoneStatus,
      (l.foldl (updateSlotDate nd) acc).1 =
        acc.1 ++ l.map (fun s =>
          { s with date := nd,
                   sale_order := { s.sale_order with delivery_date := nd } }) := by
  induction l with
  | nil => intro acc; simp
  | cons s rest ih =>
      intro acc
      rw [List.foldl_cons, ih]
      simp [updateSlotDate]

/-- C5: the date constraint hook raises exactly when the delivery's date
is set and earlier than today; otherwise, after it runs, every slot of
the delivery carries the delivery's date, as does each slot's sale order
delivery_date. -/
theorem C5_update_delivery_date (d : Delivery) (today : Nat)
    (statuses : List ZoneStatus) :
    (isErr (d.update_delivery_date_and_related_objects today statuses).1 = true ↔
      ∃ dt, d.date = some dt ∧ dt < today) ∧
    (isErr (d.update_delivery_date_and_related_objects today statuses).1 = false →
      ∀ s1 ∈ (d.update_delivery_date_and_related_objects today statuses).2.1.slot_ids,
        s1.date = d.date ∧ s1.sale_order.delivery_date = d.date) := by
  unfold Delivery.update_delivery_date_and_related_objects
  by_cases hp : d.date_in_past today = true
  · rw [if_pos hp]
    constructor
    · unfold Delivery.date_in_past at hp
      constructor
      · intro _
        cases hd : d.date with
        | none => rw [hd] at hp; simp at hp
        | some dt =>
            rw [hd] at hp
            simp at hp
            exact ⟨dt, rfl, hp⟩
      · intro _
        rfl
    · intro hcontra
      simp [isErr] at hcontra
  · rw [if_neg hp]
    constructor
    · simp only [isErr]
      constructor
      · intro h
        exact absurd h (by simp)
      · rintro ⟨dt, hdt, hlt⟩
        exfalso
        apply hp
        unfold Delivery.date_in_past
        rw [hdt]
        simpa using hlt
    · intro _ s1 hs1
      have hfold := foldl_updateSlotDate d.date d.slot_ids ([], statuses)
      simp only [List.nil_append] at hfold
      have hmem : s1 ∈ d.slot_ids.map (fun s =>
          { s with date := d.date,
                   sale_order := { s.sale_order with delivery_date := d.date } }) := by
        rw [← hfold]
        exact hs1
      rcases List.mem_map.mp hmem with ⟨s0, _, hs0⟩
      rw [← hs0]
      exact ⟨rfl, rfl⟩

/-- Witness for C5 at a concrete input: a delivery dated day 10 with one
slot, updated when today is day 5, succeeds and the slot carries day
10. -/
theorem C5_update_delivery_date_witness :
    ((Delivery.update_delivery_date_and_related_objects
      { delivery_rec_id := 5, status := DStatus.scheduled, vehicle_id := none,
        slot_ids := [fresh_slot], date := some 10, cancelled_date := none }
      5 []).2.1.slot_ids.getD 0 fresh_slot).date = some 10 ∧
    ((Delivery.update_delivery_date_and_related_objects
      { delivery_rec_id := 5, status := DStatus.scheduled, vehicle_id := none,
        slot_ids := [fresh_slot], date := some 10, cancelled_date := none }
      5 []).2.1.slot_ids.getD 0
        fresh_slot).sale_order.delivery_date = some 10 :=
  (C5_update_delivery_date
    { delivery_rec_id := 5, status := DStatus.scheduled, vehicle_id := none,
      slot_ids := [fresh_slot], date := some 10, cancelled_date := none }
    5 []).2 (by decide) _ (by decide)

/-- get_or_create_status_record registers the slot under the order's zone
and the slot's date. -/
theorem gocsr_registers (statuses : List ZoneStatus) (s : Slot)
    (o : SaleOrder) :
    ∃ z ∈ Slot.get_or_create_status_record statuses s o,
      z.zone_id = o.zone_id ∧ z.date = s.date ∧ s.slot_id ∈ z.slot_ids := by
  unfold Slot.get_or_create_status_record
  by_cases hf : statuses.filter
      (fun z => decide (z.zone_id = o.zone_id ∧ z.date = s.date)) = []
  · rw [if_pos hf]
    refine ⟨{ zone_id := o.zone_id, date := s.date, slot_ids := [s.slot_id] },
      ?_, rfl, rfl, by simp⟩
    simp
  · rw [if_neg hf]
    obtain ⟨z0, hz0⟩ := List.exists_mem_of_ne_nil _ hf
    have hz0mem := (List.mem_filter.mp hz0).1
    have hz0p : z0.zone_id = o.zone_id ∧ z0.date = s.date := by
      have := (List.mem_filter.mp hz0).2
      simpa using this
    refine ⟨{ z0 with slot_ids := z0.slot_ids ++ [s.slot_id] }, ?_, by
      simpa using hz0p.1, by simpa using hz0p.2, by simp⟩
    apply List.mem_map.mpr
    exact ⟨z0, hz0mem, by rw [if_pos hz0p]⟩

/-- get_or_create_status_record keeps every slot registration already
present in the table. -/
theorem gocsr_preserves (statuses : List ZoneStatus) (s : Slot)
    (o : SaleOrder) (zid : Nat) (dt : Option Nat) (sid0 : Nat) :
    (∃ z ∈ statuses, z.zone_id = zid ∧ z.date = dt ∧ sid0 ∈ z.slot_ids) →
    ∃ z ∈ Slot.get_or_create_status_record statuses s o,
      z.zone_id = zid ∧ z.date = dt ∧ sid0 ∈ z.slot_ids := by
  rintro ⟨z0, hmem, h1, h2, h3⟩
  unfold Slot.get_or_create_status_record
  by_cases hf : statuses.filter
      (fun z => decide (z.zone_id = o.zone_id ∧ z.date = s.date)) = []
  · rw [if_pos hf]
    exact ⟨z0, List.mem_append_left _ hmem, h1, h2, h3⟩
  · rw [if_neg hf]
    by_cases hz : z0.zone_id = o.zone_id ∧ z0.date = s.date
    · refine ⟨{ z0 with slot_ids := z0.slot_ids ++ [s.slot_id] }, ?_,
        by simpa using h1, by simpa using h2, List.mem_append_left _ h3⟩
      exact List.mem_map.mpr ⟨z0, hmem, by rw [if_pos hz]⟩
    · exact ⟨z0, List.mem_map.mpr ⟨z0, hmem, by rw [if_neg hz]⟩, h1, h2, h3⟩

/-- How get_or_create_status_record changes the number of records keyed
by the order's zone and the slot's date: it becomes 1 when there was
none, and is unchanged otherwise. -/
theorem gocsr_count (statuses : List ZoneStatus) (s : Slot) (o : SaleOrder) :
    ((Slot.get_or_create_status_record statuses s o).filter
        (fun z => decide (z.zone_id = o.zone_id ∧ z.date = s.date))).length =
      if (statuses.filter
            (fun z => decide (z.zone_id = o.zone_id ∧ z.date = s.date))).length
          = 0 then 1
      else (statuses.filter
            (fun z => decide (z.zone_id = o.zone_id ∧ z.date = s.date))).length := by
  unfold Slot.get_or_create_status_record
  by_cases hf : statuses.filter
      (fun z => decide (z.zone_id = o.zone_id ∧ z.date = s.date)) = []
  · rw [if_pos hf, List.filter_append, hf]
    simp
  · rw [if_neg hf]
    have hlen : (statuses.filter
        (fun z => decide (z.zone_id = o.zone_id ∧ z.date = s.date))).length ≠ 0 := by
      intro h
      exact hf (List.eq_nil_of_length_eq_zero h)
    rw [if_neg hlen]
    rw [← List.countP_eq_length_filter, ← List.countP_eq_length_filter,
        List.countP_map]
    apply List.countP_congr
    intro z _
    by_cases hz : z.zone_id = o.zone_id ∧ z.date = s.date
    · simp [hz]
    · simp [hz]

/-- Specification of the create_slots loop: one slot per line carrying
that line's id and volume and the given date, every created slot
registered under the order's zone and the date, prior registrations kept,
and the number of status records for that key growing only from zero to
one. -/
theorem createSlotsGo_spec (order : SaleOrder) (date : Option Nat)
    (lines : List OrderLine) : ∀ (sid : Nat) (statuses : List ZoneStatus),
    List.Forall₂ (fun (sl : Slot) (line : OrderLine) =>
        sl.sale_order_line_id = line.line_id ∧ sl.total_volume = line.volume ∧
        sl.date = date)
      (createSlotsGo order date lines sid statuses).1 lines ∧
    (∀ sl ∈ (createSlotsGo order date lines sid statuses).1,
      ∃ z ∈ (createSlotsGo order date lines sid statuses).2,
        z.zone_id = order.zone_id ∧ z.date = date ∧ sl.slot_id ∈ z.slot_ids) ∧
    (∀ (zid : Nat) (dt : Option Nat) (sid0 : Nat),
      (∃ z ∈ statuses, z.zone_id = zid ∧ z.date = dt ∧ sid0 ∈ z.slot_ids) →
      ∃ z ∈ (createSlotsGo order date lines sid statuses).2,
        z.zone_id = zid ∧ z.date = dt ∧ sid0 ∈ z.slot_ids) ∧
    (((createSlotsGo order date lines sid statuses).2.filter
        (fun z => decide (z.zone_id = order.zone_id ∧ z.date = date))).length =
      if (statuses.filter
            (fun z => decide (z.zone_id = order.zone_id ∧ z.date = date))).length
            = 0 ∧ lines ≠ [] then 1
      else (statuses.filter
            (fun z => decide (z.zone_id = order.zone_id ∧ z.date = date))).length) := by
  induction lines with
  | nil =>
      intro sid statuses
      refine ⟨List.Forall₂.nil, ?_, ?_, ?_⟩
      · intro sl hsl
        simp [createSlotsGo] at hsl
      · intro zid dt sid0 h
        simpa [createSlotsGo] using h
      · simp [createSlotsGo]
  | cons line rest ih =>
      intro sid statuses
      have hred : createSlotsGo order date (line :: rest) sid statuses =
          (mkSlotForLine order date sid line ::
            (createSlotsGo order date rest (sid + 1)
              (Slot.get_or_create_status_record statuses
                (mkSlotForLine order date sid line) order)).1,
           (createSlotsGo order date rest (sid + 1)
              (Slot.get_or_create_status_record statuses
                (mkSlotForLine order date sid line) order)).2) := rfl
      rw [hred]
      have ihspec := ih (sid + 1)
        (Slot.get_or_create_status_record statuses
          (mkSlotForLine order date sid line) order)
      refine ⟨?_, ?_, ?_, ?_⟩
      · exact List.Forall₂.cons ⟨rfl, rfl, rfl⟩ ihspec.1
      · intro sl hsl
        rcases List.mem_cons.mp hsl with hsl | hsl
        · subst hsl
          have hreg := gocsr_registers statuses
            (mkSlotForLine order date sid line) order
          exact ihspec.2.2.1 order.zone_id date
            (mkSlotForLine order date sid line).slot_id hreg
        · exact ihspec.2.1 sl hsl
      · intro zid dt sid0 h
        exact ihspec.2.2.1 zid dt sid0
          (gocsr_preserves statuses (mkSlotForLine order date sid line) order
            zid dt sid0 h)
      · have hc1 : (List.filter
            (fun z => decide (z.zone_id = order.zone_id ∧ z.date = date))
            (Slot.get_or_create_status_record statuses
              (mkSlotForLine order date sid line) order)).length =
            if (List.filter
                  (fun z => decide (z.zone_id = order.zone_id ∧ z.date = date))
                  statuses).length = 0 then 1
            else (List.filter
                  (fun z => decide (z.zone_id = order.zone_id ∧ z.date = date))
                  statuses).length :=
          gocsr_count statuses (mkSlotForLine order date sid line) order
        have hcount := ihspec.2.2.2
        rw [hc1] at hcount
        by_cases hc0 : (statuses.filter
            (fun z => decide (z.zone_id = order.zone_id ∧ z.date = date))).length
            = 0
        · rw [if_pos hc0] at hcount
          rw [if_neg (by
            intro hcontra
            exact absurd hcontra.1 (by simp))] at hcount
          have hcond : (statuses.filter
              (fun z => decide (z.zone_id = order.zone_id ∧ z.date = date))).length
              = 0 ∧ (line :: rest) ≠ ([] : List OrderLine) := ⟨hc0, by simp⟩
          rw [if_pos hcond]
          exact hcount
        · rw [if_neg hc0] at hcount
          rw [if_neg (by
            intro hcontra
            exact hc0 hcontra.1)] at hcount
          have hcond : ¬ ((statuses.filter
              (fun z => decide (z.zone_id = order.zone_id ∧ z.date = date))).length
              = 0 ∧ (line :: rest) ≠ ([] : List OrderLine)) := by
            intro hcontra
            exact hc0 hcontra.1
          rw [if_neg hcond]
          exact hcount

/-- C6: Slot.create_slots makes exactly one slot per order line, each
slot referencing that line (same line id, that line's volume as
total_volume, the given date), registers every created slot in a zone
status record keyed by the order's zone and the slot's date, and creates
no new status record when one already exists for that key. -/
theorem C6_create_slots (order : SaleOrder) (date : Option Nat) (sid : Nat)
    (statuses : List ZoneStatus) :
    (Slot.create_slots order date sid statuses).1.length =
      order.order_line.length ∧
    List.Forall₂ (fun (sl : Slot) (line : OrderLine) =>
        sl.sale_order_line_id = line.line_id ∧ sl.total_volume = line.volume ∧
        sl.date = date)
      (Slot.create_slots order date sid statuses).1 order.order_line ∧
    (∀ sl ∈ (Slot.create_slots order date sid statuses).1,
      ∃ z ∈ (Slot.create_slots order date sid statuses).2,
        z.zone_id = order.zone_id ∧ z.date = date ∧ sl.slot_id ∈ z.slot_ids) ∧
    ((statuses.filter
        (fun z => decide (z.zone_id = order.zone_id ∧ z.date = date))).length ≠ 0 →
      ((Slot.create_slots order date sid statuses).2.filter
        (fun z => decide (z.zone_id = order.zone_id ∧ z.date = date))).length =
        (statuses.filter
          (fun z => decide (z.zone_id = order.zone_id ∧ z.date = date))).length) := by
  have h := createSlotsGo_spec order date order.order_line sid statuses
  refine ⟨h.1.length_eq, h.1, h.2.1, ?_⟩
  intro hne
  unfold Slot.create_slots
  rw [h.2.2.2]
  rw [if_neg (by
    intro hcontra
    exact hne hcontra.1)]

/-- Witness for C6 at a concrete input: creating slots for a one-line
order when a status record for the zone and date already exists leaves
the record count at one. -/
theorem C6_create_slots_witness :
    ((Slot.create_slots
        { order_id := 9, zone_id := 2, delivery_date := none,
          order_line := [{ line_id := 1, volume := 4 }], picking_ids := [] }
        (some 3) 0
        [{ zone_id := 2, date := some 3, slot_ids := [7] }]).2.filter
      (fun z => decide (z.zone_id = 2 ∧ z.date = some 3))).length = 1 :=
  (C6_create_slots
    { order_id := 9, zone_id := 2, delivery_date := none,
      order_line := [{ line_id := 1, volume := 4 }], picking_ids := [] }
    (some 3) 0
    [{ zone_id := 2, date := some 3, slot_ids := [7] }]).2.2.2 (by decide)

/-- C8 counterexample: from a fresh slot, set_delivered followed by
reset_to_scheduled (slot without a delivery) leaves is_delivered True
while the status is back to "scheduled", refuting that is_delivered is
True exactly when the status is "delivered". -/
theorem C8_counterexample :
    (runSlotOps [SlotOp.deliver 0, SlotOp.reset none] fresh_slot).is_delivered
      = true ∧
    (runSlotOps [SlotOp.deliver 0, SlotOp.reset none] fresh_slot).status ≠
      SStatus.delivered := by
  decide

/-- C8 amended: the four slot operations preserve the one-directional
invariant that is_delivered holds whenever the status is "delivered" and
is_returned holds whenever the status is "returned" (the flags may stay
set after the status moves on), and every operation sequence from a fresh
slot keeps that invariant. -/
theorem C8_flags_invariant :
    (∀ op s, slot_flags_inv s → slot_flags_inv (applySlotOp op s)) ∧
    (∀ ops, slot_flags_inv (runSlotOps ops fresh_slot)) := by
  have step : ∀ op s, slot_flags_inv s → slot_flags_inv (applySlotOp op s) := by
    intro op s hs
    cases op with
    | deliver now =>
        simp [applySlotOp, Slot.set_delivered, slot_flags_inv]
    | ret =>
        simp [applySlotOp, Slot.set_returned_driver_portal, slot_flags_inv]
    | cancel =>
        unfold applySlotOp Slot.cancel_action
        by_cases h : s.status = SStatus.delivered ∨ s.status = SStatus.returned
        · simpa [h] using hs
        · simp [h, slot_flags_inv]
    | reset ds =>
        unfold applySlotOp Slot.reset_to_scheduled
        cases ds with
        | none => simp [slot_flags_inv]
        | some st =>
            by_cases h : st = DStatus.scheduled
            · simp [h, slot_flags_inv]
            · simpa [h] using hs
  have runpres : ∀ ops s, slot_flags_inv s → slot_flags_inv (runSlotOps ops s) := by
    intro ops
    induction ops with
    | nil =>
        intro s hs
        simpa [runSlotOps] using hs
    | cons op rest ih =>
        intro s hs
        have heq : runSlotOps (op :: rest) s = runSlotOps rest (applySlotOp op s) := rfl
        rw [heq]
        exact ih _ (step op s hs)
  exact ⟨step, fun ops => runpres ops fresh_slot (by decide)⟩

/-- Witness for C8 amended: applying set_delivered to a fresh slot
preserves the flags invariant. -/
theorem C8_flags_invariant_witness :
    slot_flags_inv (applySlotOp (SlotOp.deliver 3) fresh_slot) :=
  C8_flags_invariant.1 (SlotOp.deliver 3) fresh_slot (by decide)

/-- unlinkSlotsLoop raises exactly when some slot in the list is not
cancelled, and deletes every slot when all are cancelled. -/
theorem unlinkSlotsLoop_spec (l : List Slot) :
    (isErr (unlinkSlotsLoop l).1 = true ↔
      ∃ s ∈ l, s.status ≠ SStatus.cancelled) ∧
    (isErr (unlinkSlotsLoop l).1 = false → (unlinkSlotsLoop l).2 = []) := by
  induction l with
  | nil => exact ⟨by simp [unlinkSlotsLoop, isErr], fun _ => rfl⟩
  | cons s rest ih =>
      unfold unlinkSlotsLoop Slot.unlink
      by_cases h : s.status ≠ SStatus.cancelled
      · rw [if_pos h]
        refine ⟨?_, ?_⟩
        · constructor
          · intro _
            exact ⟨s, List.mem_cons_self s rest, h⟩
          · intro _
            rfl
        · intro hx
          simp [isErr] at hx
      · rw [if_neg h]
        rcases hr : unlinkSlotsLoop rest with ⟨r1, rem⟩
        rw [hr] at ih
        cases r1 with
        | error e =>
            refine ⟨?_, ?_⟩
            · constructor
              · intro _
                rcases ih.1.mp rfl with ⟨x, hx, hxs⟩
                exact ⟨x, List.mem_cons_of_mem s hx, hxs⟩
              · intro _
                rfl
            · intro hx
              simp [isErr] at hx
        | ok u =>
            refine ⟨?_, ?_⟩
            · constructor
              · intro hcontra
                simp [isErr] at hcontra
              · rintro ⟨x, hx, hxs⟩
                rcases List.mem_cons.mp hx with hx | hx
                · exact absurd (hx ▸ hxs) h
                · have hcontra := ih.1.mpr ⟨x, hx, hxs⟩
                  simp [isErr] at hcontra
            · intro _
              exact ih.2 rfl

/-- C9 counterexample: unlinking a cancelled delivery holding a cancelled
slot followed by a scheduled slot raises (because of the scheduled slot),
yet the cancelled slot row has already been deleted, so a raise does not
leave every record in place. -/
theorem C9_counterexample :
    isErr (Delivery.unlink
      [{ delivery_rec_id := 9, status := DStatus.cancelled, vehicle_id := none,
         slot_ids := [cancelled_slot1, fresh_slot],
         date := none, cancelled_date := none }]).1 = true ∧
    (Delivery.unlink
      [{ delivery_rec_id := 9, status := DStatus.cancelled, vehicle_id := none,
         slot_ids := [cancelled_slot1, fresh_slot],
         date := none, cancelled_date := none }]).2.2 = [fresh_slot] ∧
    [cancelled_slot1, fresh_slot] ≠ [fresh_slot] := by
  decide

/-- C9 amended: Delivery.unlink raises, deleting nothing, unless every
delivery in the recordset is cancelled; it succeeds exactly when,
additionally, every slot of the LAST delivery of the recordset is
cancelled, and then deletes the deliveries and that last delivery's
slots, leaving the slot rows of the other deliveries behind; Slot.unlink
on a single slot raises exactly when the slot is not cancelled. -/
theorem C9_unlink (d : Delivery) (ds : List Delivery) (s : Slot) :
    ((∃ x ∈ d :: ds, x.status ≠ DStatus.cancelled) →
      Delivery.unlink (d :: ds) =
        (Except.error "You can only delete cancelled deliveries", d :: ds,
         ((d :: ds).map (fun x => x.slot_ids)).flatten)) ∧
    (isErr (Delivery.unlink (d :: ds)).1 = false ↔
      ((∀ x ∈ d :: ds, x.status = DStatus.cancelled) ∧
       ∀ sl ∈ ((d :: ds).getLast (List.cons_ne_nil d ds)).slot_ids,
         sl.status = SStatus.cancelled)) ∧
    (isErr (Delivery.unlink (d :: ds)).1 = false →
      (Delivery.unlink (d :: ds)).2.1 = [] ∧
      (Delivery.unlink (d :: ds)).2.2 =
        ((d :: ds).dropLast.map (fun x => x.slot_ids)).flatten) ∧
    (isErr s.unlink = true ↔ s.status ≠ SStatus.cancelled) := by
  have hslot : isErr s.unlink = true ↔ s.status ≠ SStatus.cancelled := by
    unfold Slot.unlink
    by_cases h : s.status ≠ SStatus.cancelled
    · rw [if_pos h]
      exact ⟨fun _ => h, fun _ => rfl⟩
    · rw [if_neg h]
      constructor
      · intro hcontra
        simp [isErr] at hcontra
      · intro hcontra
        exact absurd hcontra h
  simp only [Delivery.unlink]
  by_cases hany : (d :: ds).any
      (fun x => decide (x.status ≠ DStatus.cancelled)) = true
  · rw [if_pos hany]
    refine ⟨fun _ => rfl, ?_, ?_, hslot⟩
    · constructor
      · intro hcontra
        simp [isErr] at hcontra
      · rintro ⟨hall, _⟩
        exfalso
        rcases List.any_eq_true.mp hany with ⟨x, hx, hxs⟩
        exact absurd (hall x hx) (by simpa using hxs)
    · intro hcontra
      simp [isErr] at hcontra
  · rw [if_neg hany]
    have hall : ∀ x ∈ d :: ds, x.status = DStatus.cancelled := by
      intro x hx
      by_contra hc
      exact hany (List.any_eq_true.mpr ⟨x, hx, by simpa using hc⟩)
    have hspec := unlinkSlotsLoop_spec
      (((d :: ds).getLast (List.cons_ne_nil d ds)).slot_ids)
    rcases hr : unlinkSlotsLoop
        (((d :: ds).getLast (List.cons_ne_nil d ds)).slot_ids) with ⟨r1, rem⟩
    rw [hr] at hspec
    cases r1 with
    | error e =>
        refine ⟨?_, ?_, ?_, hslot⟩
        · rintro ⟨x, hx, hxs⟩
          exact absurd (hall x hx) hxs
        · constructor
          · intro hcontra
            simp [isErr] at hcontra
          · rintro ⟨_, hslots⟩
            exfalso
            rcases hspec.1.mp rfl with ⟨sl, hsl, hsls⟩
            exact absurd (hslots sl hsl) hsls
        · intro hcontra
          simp [isErr] at hcontra
    | ok u =>
        refine ⟨?_, ?_, ?_, hslot⟩
        · rintro ⟨x, hx, hxs⟩
          exact absurd (hall x hx) hxs
        · constructor
          · intro _
            refine ⟨hall, ?_⟩
            intro sl hsl
            by_contra hc
            have hcontra := hspec.1.mpr ⟨sl, hsl, hc⟩
            simp [isErr] at hcontra
          · intro _
            rfl
        · intro _
          exact ⟨rfl, rfl⟩

/-- Witness for C9 amended at a concrete input: unlinking a recordset
holding one non-cancelled delivery raises and deletes nothing. -/
theorem C9_unlink_witness :
    Delivery.unlink
      [{ delivery_rec_id := 11, status := DStatus.scheduled,
         vehicle_id := none, slot_ids := [fresh_slot], date := none,
         cancelled_date := none }] =
      (Except.error "You can only delete cancelled deliveries",
       [{ delivery_rec_id := 11, status := DStatus.scheduled,
          vehicle_id := none, slot_ids := [fresh_slot], date := none,
          cancelled_date := none }],
       [fresh_slot]) := by
  have h := (C9_unlink
    { delivery_rec_id := 11, status := DStatus.scheduled, vehicle_id := none,
      slot_ids := [fresh_slot], date := none, cancelled_date := none }
    [] fresh_slot).1
    ⟨{ delivery_rec_id := 11, status := DStatus.scheduled, vehicle_id := none,
       slot_ids := [fresh_slot], date := none, cancelled_date := none },
     by simp, by decide⟩
  simpa using h

/-- The guids written by assignGuids are the successive values of the
uuid counter, one per dict. -/
theorem assignGuids_map (l : List Vals) : ∀ n : Nat,
    (assignGuids n l).map Vals.guid =
      (List.range l.length).map (fun i => some (n + i)) := by
  induction l with
  | nil => intro n; simp [assignGuids]
  | cons v rest ih =>
      intro n
      simp only [assignGuids, List.map_cons, List.length_cons]
      rw [ih (n + 1), List.range_succ_eq_map]
      simp only [List.map_cons, List.map_map]
      congr 1
      apply List.map_congr_left
      intro i _
      simp only [Function.comp_apply]
      congr 1
      omega

/-- The guids and names written by assignNamesGuids are the successive
values of the uuid and sequence counters, one pair per dict. -/
theorem assignNamesGuids_maps (l : List Vals) : ∀ u q : Nat,
    (assignNamesGuids u q l).map Vals.guid =
      (List.range l.length).map (fun i => some (u + i)) ∧
    (assignNamesGuids u q l).map Vals.name =
      (List.range l.length).map (fun i => some (q + i)) := by
  induction l with
  | nil => intro u q; simp [assignNamesGuids]
  | cons v rest ih =>
      intro u q
      constructor
      · simp only [assignNamesGuids, List.map_cons, List.length_cons]
        rw [(ih (u + 1) (q + 1)).1, List.range_succ_eq_map]
        simp only [List.map_cons, List.map_map]
        congr 1
        apply List.map_congr_left
        intro i _
        simp only [Function.comp_apply]
        congr 1
        omega
      · simp only [assignNamesGuids, List.map_cons, List.length_cons]
        rw [(ih (u + 1) (q + 1)).2, List.range_succ_eq_map]
        simp only [List.map_cons, List.map_map]
        congr 1
        apply List.map_congr_left
        intro i _
        simp only [Function.comp_apply]
        congr 1
        omega

/-- C10: Cluster.create writes a fresh uuid into the dict or into each
dict of a list and raises ValueError on any other argument type;
Slot.create writes a sequence name and a fresh uuid likewise;
Delivery.create does so for a single dict, but for a LIST argument it
crashes on values[\x22name\x22] (TypeError: string index into a list)
before any record is created, instead of assigning the sequence name as
the claim states. -/
theorem C10_create (uuidCtr seqCtr : Nat) (l : List Vals) (v : Vals) :
    Cluster.create uuidCtr (CreateArg.dict v) =
      Except.ok [{ v with guid := some uuidCtr }] ∧
    Cluster.create uuidCtr (CreateArg.list l) =
      Except.ok (assignGuids uuidCtr l) ∧
    (assignGuids uuidCtr l).map Vals.guid =
      (List.range l.length).map (fun i => some (uuidCtr + i)) ∧
    isErr (Cluster.create uuidCtr CreateArg.other) = true ∧
    Delivery.create uuidCtr seqCtr (CreateArg.dict v) =
      Except.ok [{ v with guid := some uuidCtr, name := some seqCtr }] ∧
    isErr (Delivery.create uuidCtr seqCtr (CreateArg.list l)) = true ∧
    Slot.create uuidCtr seqCtr (CreateArg.dict v) =
      Except.ok [{ v with name := some seqCtr, guid := some uuidCtr }] ∧
    Slot.create uuidCtr seqCtr (CreateArg.list l) =
      Except.ok (assignNamesGuids uuidCtr seqCtr l) ∧
    (assignNamesGuids uuidCtr seqCtr l).map Vals.guid =
      (List.range l.length).map (fun i => some (uuidCtr + i)) ∧
    (assignNamesGuids uuidCtr seqCtr l).map Vals.name =
      (List.range l.length).map (fun i => some (seqCtr + i)) :=
  ⟨rfl, rfl, assignGuids_map l uuidCtr, rfl, rfl, rfl, rfl, rfl,
   (assignNamesGuids_maps l uuidCtr seqCtr).1,
   (assignNamesGuids_maps l uuidCtr seqCtr).2⟩

end Logistic
